import Mathlib

/-!
# Verification of the clhaskell infrastructure declarations

This file gives a shallow embedding of the declarative resource graph built by
the clhaskell CDK application and proves properties of it:

* `src/infra/lib/dns-stack.ts` — the root hosted zone and the per-stage
  cross-account DNS management roles with their record-name conditions;
* `src/infra/lib/certificate-stack.ts` — the root certificate stack pinned to
  the `us-east-1` region;
* `src/infra/lib/static-website-stack.ts` — the per-stage bucket, sub-zone,
  certificate, delegation records and CloudFront distribution;
* `src/unnamed/part_004` — an alternative static-website stack variant;
* `src/infra/bin/app.ts` — configuration loading, validation, and top-level
  stack composition.

Strings stay strings; IAM `StringLike` wildcard patterns are interpreted by an
executable glob matcher over character lists.
-/

namespace Clhaskell

/-! ## IAM StringLike wildcard matching

`globMatch p s` decides whether the character list `s` matches the pattern `p`,
where `'*'` matches zero or more arbitrary characters and every other pattern
character matches itself.  This is the semantics AWS IAM gives to `StringLike`
condition values. -/

def globMatch : List Char → List Char → Bool
  | [], s => s.isEmpty
  | c :: ps, s =>
    if c = '*' then s.tails.any fun t => globMatch ps t
    else
      match s with
      | [] => false
      | d :: s₂ => c == d && globMatch ps s₂

/-! ## DNS stack — `src/infra/lib/dns-stack.ts`

`DnsStack` creates one root hosted zone and, for each `(stageName, account)`
entry of `trustedAccounts`, one IAM role named
`CrossAccountDnsManagementRole-<stageName>` assumable by that account, whose
`route53:ChangeResourceRecordSets` statement carries a
`ForAnyValue:StringLike` condition on
`route53:ChangeResourceRecordSetsNormalizedRecordNames` with the single
pattern `` `*${stageName}.${props.domainName}` ``. -/

structure DelegationRole where
  roleName : String
  assumedByAccount : String
  recordNamePatterns : List String
  deriving DecidableEq, Repr

def dnsStackRoleName (stageName : String) : String :=
  "CrossAccountDnsManagementRole-" ++ stageName

def dnsRecordNamePattern (stageName domainName : String) : String :=
  "*" ++ stageName ++ "." ++ domainName

def dnsStackRoles (domainName : String) (trustedAccounts : List (String × String)) :
    List DelegationRole :=
  trustedAccounts.map fun e =>
    { roleName := dnsStackRoleName e.1
      assumedByAccount := e.2
      recordNamePatterns := [dnsRecordNamePattern e.1 domainName] }

/-! ## Root certificate stack — `src/infra/lib/certificate-stack.ts`

`RootCertificateStack` calls `super(scope, id, { ...props, env: { region:
"us-east-1" } })`, replacing whatever `env` the caller supplied, and then
declares one certificate (root domain, wildcard and `prod` alternative names)
inside that stack, hence in the stack's region. -/

structure StackEnv where
  account : Option String
  region : Option String
  deriving DecidableEq, Repr

structure RootCertStackProps where
  env : Option StackEnv
  rootHostedZoneId : String
  rootHostedZoneName : String
  deriving DecidableEq, Repr

structure CertificateDecl where
  domainName : String
  subjectAlternativeNames : List String
  region : Option String
  deriving DecidableEq, Repr

/-- The stack props actually passed to `Stack`: the spread
`{ ...props, env: { region: "us-east-1" } }` overrides `env` wholesale. -/
def rootCertificateStackEffectiveProps (p : RootCertStackProps) : RootCertStackProps :=
  { p with env := some { account := none, region := some "us-east-1" } }

structure RootCertificateModel where
  env : Option StackEnv
  certificate : CertificateDecl
  deriving DecidableEq, Repr

def rootCertificateStack (p : RootCertStackProps) : RootCertificateModel :=
  let ep := rootCertificateStackEffectiveProps p
  { env := ep.env
    certificate :=
      { domainName := p.rootHostedZoneName
        subjectAlternativeNames :=
          ["*." ++ p.rootHostedZoneName, "prod." ++ p.rootHostedZoneName]
        region := match ep.env with
          | some e => e.region
          | none => none } }

/-! ## Static website stack — `src/infra/lib/static-website-stack.ts` -/

structure WebsiteProps where
  dnsAccountId : String
  rootHostedZoneName : String
  domainName : String
  stageName : String
  deriving DecidableEq, Repr

structure WebsiteCertificate where
  domainName : String
  subjectAlternativeNames : List String
  deriving DecidableEq, Repr

/-- The set of names a certificate covers: its primary domain name plus its
subject alternative names. -/
def certificateCoveredNames (c : WebsiteCertificate) : List String :=
  c.domainName :: c.subjectAlternativeNames

structure DelegationRecordDecl where
  constructId : String
  delegatedZoneName : String
  parentHostedZoneName : String
  delegationRoleArn : String
  deriving DecidableEq, Repr

/-- The ARN the stack builds with `formatArn` for the cross-account role in the
DNS account (service `iam`, empty region, resource `role`). -/
def websiteDelegationRoleArn (p : WebsiteProps) : String :=
  "arn:aws:iam::" ++ p.dnsAccountId ++ ":role/" ++ dnsStackRoleName p.stageName

structure StaticWebsiteModel where
  bucketName : String
  delegationRoleArn : String
  subdomainZoneName : String
  certificate : WebsiteCertificate
  delegationRecords : List DelegationRecordDecl
  distributionDomainNames : List String
  aliasRecordName : String
  deriving DecidableEq, Repr

/-- The resource declarations of `StaticWebsiteStack` in
`src/infra/lib/static-website-stack.ts`, transcribed in source order:
bucket, delegation role ARN, sub-zone, certificate (root domain added as an
alternative name only for the `prod` stage), the `DelegationRecord-<stage>`
record, the distribution (root domain added only for `prod`), the alias
record, and the second `subdomainDelegationRecord` record. -/
def staticWebsiteStack (account : String) (p : WebsiteProps) : StaticWebsiteModel :=
  { bucketName := p.stageName ++ "-website-" ++ account
    delegationRoleArn := websiteDelegationRoleArn p
    subdomainZoneName := p.domainName
    certificate :=
      { domainName := p.domainName
        subjectAlternativeNames :=
          if p.stageName = "prod" then [p.rootHostedZoneName] else [] }
    delegationRecords :=
      [ { constructId := "DelegationRecord-" ++ p.stageName
          delegatedZoneName := p.domainName
          parentHostedZoneName := p.rootHostedZoneName
          delegationRoleArn := websiteDelegationRoleArn p },
        { constructId := "subdomainDelegationRecord"
          delegatedZoneName := p.domainName
          parentHostedZoneName := p.rootHostedZoneName
          delegationRoleArn := websiteDelegationRoleArn p } ]
    distributionDomainNames :=
      if p.stageName = "prod" then [p.rootHostedZoneName, p.domainName]
      else [p.domainName]
    aliasRecordName := p.domainName }

/-! ## Static website stack variant — `src/unnamed/part_004` -/

/-- `capitalizeFirstLetter` from `src/unnamed/part_004`:
`String(val).charAt(0).toUpperCase() + String(val).slice(1)` (for the ASCII
stage names this app uses). -/
def capitalizeFirstLetter (s : String) : String :=
  match s.data with
  | [] => ""
  | c :: cs => ⟨c.toUpper :: cs⟩

/-- The role name the `part_004` variant embeds into the delegation role ARN. -/
def part004DelegationRoleName (stageName : String) : String :=
  "CrossAccountDnsManagementRole-" ++ capitalizeFirstLetter stageName

def part004DelegationRoleArn (p : WebsiteProps) : String :=
  "arn:aws:iam::" ++ p.dnsAccountId ++ ":role/" ++ part004DelegationRoleName p.stageName

/-- In `part_004` the certificate is either issued in-stack (for `prod`) or
imported by ARN (all other stages); an imported certificate's covered names
are not visible to the code. -/
inductive Certificate004 where
  | issued (domainName : String) (subjectAlternativeNames : List String)
  | imported (certificateArn : String)
  deriving DecidableEq, Repr

/-- The names a `part_004` certificate is known to cover: visible for a
certificate issued in-stack, unknown (`none`) for one imported by ARN. -/
def certificate004CoveredNames : Certificate004 → Option (List String)
  | Certificate004.issued d sans => some (d :: sans)
  | Certificate004.imported _ => none

structure StaticWebsiteModel004 where
  bucketName : String
  delegationRoleArn : String
  subdomainZoneName : String
  certificate : Certificate004
  delegationRecords : List DelegationRecordDecl
  distributionDomainNames : List String
  aliasRecordName : String
  deriving DecidableEq, Repr

/-- The resource declarations of `StaticWebsiteStack` in
`src/unnamed/part_004`: one delegation record, a capitalized role name,
a certificate issued in-stack only for `prod` (primary name only, no
alternative names), and a distribution that for `prod` lists the `www`
alias, the bare root domain and the stage subdomain. -/
def staticWebsiteStack004 (account : String) (p : WebsiteProps) : StaticWebsiteModel004 :=
  { bucketName := p.stageName ++ "-website-" ++ account
    delegationRoleArn := part004DelegationRoleArn p
    subdomainZoneName := p.domainName
    certificate :=
      if p.stageName = "prod" then Certificate004.issued p.domainName []
      else Certificate004.imported
        ("arn:aws:acm:us-east-1:" ++ p.dnsAccountId ++
          ":certificate/cf8a651d-bc88-46b5-b84a-4b64b0cfc594")
    delegationRecords :=
      [ { constructId := "DelegationRecord-" ++ p.stageName
          delegatedZoneName := p.domainName
          parentHostedZoneName := p.rootHostedZoneName
          delegationRoleArn := part004DelegationRoleArn p } ]
    distributionDomainNames :=
      if p.stageName = "prod" then
        ["www." ++ p.rootHostedZoneName, p.rootHostedZoneName, p.domainName]
      else [p.domainName]
    aliasRecordName := p.domainName }

/-! ## App composition and configuration validation — `src/infra/bin/app.ts`

Configuration values come from CDK context (`tryGetContext`) or, failing that,
environment variables; both are modelled as partial maps from names to
strings.  JavaScript's `||` takes the right operand whenever the left is
falsy, and for (possibly absent) strings the falsy values are `undefined` and
`""`. -/

/-- JavaScript `a || b` on possibly-absent strings. -/
def jsOr (a b : Option String) : Option String :=
  match a with
  | some s => if s = "" then b else some s
  | none => b

/-- JavaScript truthiness of a possibly-absent string: set and non-empty. -/
def truthy : Option String → Bool
  | some s => !(s == "")
  | none => false

structure Config where
  dnsAccount : Option String
  gammaAccount : Option String
  prodAccount : Option String
  domainName : Option String
  region : Option String
  repoOwner : Option String
  repoName : Option String
  deriving Repr

/-- The environment variable consulted for each context field. -/
def envVarNameFor (field : String) : String :=
  if field = "dnsAccount" then "DNS_ACCOUNT_ID"
  else if field = "gammaAccount" then "GAMMA_ACCOUNT_ID"
  else if field = "prodAccount" then "PROD_ACCOUNT_ID"
  else if field = "domainName" then "DOMAIN_NAME"
  else if field = "repoOwner" then "GITHUB_REPOSITORY_OWNER"
  else if field = "repoName" then "REPO_NAME"
  else ""

/-- The `config` object of `app.ts`: context value, else environment value;
`region` falls back to the literal `"us-east-1"`. -/
def loadConfig (ctx env : String → Option String) : Config :=
  { dnsAccount := jsOr (ctx "dnsAccount") (env "DNS_ACCOUNT_ID")
    gammaAccount := jsOr (ctx "gammaAccount") (env "GAMMA_ACCOUNT_ID")
    prodAccount := jsOr (ctx "prodAccount") (env "PROD_ACCOUNT_ID")
    domainName := jsOr (ctx "domainName") (env "DOMAIN_NAME")
    region := jsOr (ctx "region") (some "us-east-1")
    repoOwner := jsOr (ctx "repoOwner") (env "GITHUB_REPOSITORY_OWNER")
    repoName := jsOr (ctx "repoName") (env "REPO_NAME") }

/-- Dynamic field access `config[field]` for the fields the validation loop
inspects. -/
def getField (c : Config) (field : String) : Option String :=
  if field = "dnsAccount" then c.dnsAccount
  else if field = "gammaAccount" then c.gammaAccount
  else if field = "prodAccount" then c.prodAccount
  else if field = "domainName" then c.domainName
  else if field = "region" then c.region
  else if field = "repoOwner" then c.repoOwner
  else if field = "repoName" then c.repoName
  else none

def requiredEnvironmentVars : List String :=
  ["dnsAccount", "gammaAccount", "prodAccount", "domainName", "repoOwner", "repoName"]

/-- JavaScript `String.prototype.toUpperCase` for the ASCII field names used
here: uppercase every character. -/
def jsToUpperCase (s : String) : String :=
  ⟨s.data.map Char.toUpper⟩

/-- The message of the error thrown for a missing field. -/
def missingFieldError (field : String) : String :=
  "Missing required configuration: " ++ field ++ ". " ++
    "Set via --context " ++ field ++ "=value or environment variable " ++
    jsToUpperCase field

/-- The validation loop of `app.ts`: walk the required fields in order and
throw on the first falsy one. -/
def validateFields (c : Config) : List String → Except String Unit
  | [] => Except.ok ()
  | f :: rest =>
    if truthy (getField c f) then validateFields c rest
    else Except.error (missingFieldError f)

/-- A value known to be truthy after validation, unwrapped. -/
def orEmpty (v : Option String) : String := v.getD ""

/-- The props `app.ts` passes to each stage's `StaticWebsiteStack`:
`domainName` is `` `${stageName}.${config.domainName}` ``. -/
def stageWebsiteProps (dnsAccount rootDomain stageName : String) : WebsiteProps :=
  { dnsAccountId := dnsAccount
    rootHostedZoneName := rootDomain
    domainName := stageName ++ "." ++ rootDomain
    stageName := stageName }

inductive AppStack where
  | dns (domainName : String) (trustedAccounts : List (String × String))
      (account region : String)
  | website (constructId : String) (props : WebsiteProps) (account region : String)
  | githubRole (constructId : String) (repoOwner repoName : String)
      (account region : String)
  deriving DecidableEq, Repr

/-- The stacks `app.ts` instantiates once validation has passed: the DNS stack,
then for each of the stages `Gamma`, `Prod` (lower-cased to the stage name) a
static-website stack and a GitHub Actions role stack. -/
def appStacks (c : Config) : List AppStack :=
  let stageAccounts := [("gamma", orEmpty c.gammaAccount), ("prod", orEmpty c.prodAccount)]
  AppStack.dns (orEmpty c.domainName) stageAccounts
      (orEmpty c.dnsAccount) (orEmpty c.region) ::
    (["Gamma", "Prod"].flatMap fun stage =>
      let stageName := stage.toLower
      let account := orEmpty ((stageAccounts.lookup stageName).join)
      [ AppStack.website (stage ++ "StaticWebsiteStack")
          (stageWebsiteProps (orEmpty c.dnsAccount) (orEmpty c.domainName) stageName)
          account (orEmpty c.region),
        AppStack.githubRole (stage ++ "GitHubActionsRole")
          (orEmpty c.repoOwner) (orEmpty c.repoName) account (orEmpty c.region) ])

/-- The whole of `app.ts` up to `app.synth()`: load the configuration,
validate it (throwing before any stack is instantiated), then build the
stacks. -/
def buildApp (ctx env : String → Option String) : Except String (List AppStack) :=
  let c := loadConfig ctx env
  match validateFields c requiredEnvironmentVars with
  | Except.error e => Except.error e
  | Except.ok _ => Except.ok (appStacks c)

/-! ## Declaration-graph nodes of the static website stack

The constructs declared by `src/infra/lib/static-website-stack.ts` and the one
explicit dependency edge it adds:
`certificate.node.addDependency(delegationRecord)`. -/

inductive SWNode where
  | siteBucket
  | delegationRole
  | originAccessIdentity
  | subdomainHostedZone
  | subdomainCertificate
  | delegationRecordStage
  | distribution
  | aliasRecord
  | subdomainDelegationRecord
  | websiteDeployment
  deriving DecidableEq, Repr

/-- Dependency edges added explicitly with `addDependency`; an edge `(a, b)`
means `a` depends on `b`. -/
def swExplicitDependencies : List (SWNode × SWNode) :=
  [(SWNode.subdomainCertificate, SWNode.delegationRecordStage)]

/-- An evaluation order respects the dependency edges when every dependency is
placed before its dependent. -/
def respectsDependencies (edges : List (SWNode × SWNode)) (order : List SWNode) : Bool :=
  edges.all fun e => decide (order.indexOf e.2 < order.indexOf e.1)

/-! ## GitHub Actions role stack — `src/unnamed/part_001`

The role's assume-role policy is a `FederatedPrincipal` for the GitHub OIDC
provider with action `sts:AssumeRoleWithWebIdentity`, a `StringEquals`
condition pinning the audience to `sts.amazonaws.com` and a `StringLike`
condition on the token subject with the pattern
`` `repo:${props.repoOwner}/${props.repoName}:*` ``. -/

structure FederatedTrustCondition where
  action : String
  audEquals : String
  subLike : String
  deriving DecidableEq, Repr

def gitHubActionsSubjectClaim (repoOwner repoName : String) : String :=
  "repo:" ++ repoOwner ++ "/" ++ repoName ++ ":*"

def gitHubActionsTrust (repoOwner repoName : String) : FederatedTrustCondition :=
  { action := "sts:AssumeRoleWithWebIdentity"
    audEquals := "sts.amazonaws.com"
    subLike := gitHubActionsSubjectClaim repoOwner repoName }

/-- A web-identity token with audience `aud` and subject `sub` may assume the
role exactly when the audience equals the pinned audience and the subject
matches the `StringLike` pattern. -/
def allowsAssume (t : FederatedTrustCondition) (aud sub : String) : Prop :=
  aud = t.audEquals ∧ globMatch t.subLike.data sub.data = true

instance (t : FederatedTrustCondition) (aud sub : String) :
    Decidable (allowsAssume t aud sub) := by
  unfold allowsAssume; infer_instance

/-- The OIDC subject GitHub issues for a workflow of repository
`repoOwner/repoName` at some ref: `repo:<owner>/<name>:<rest>`. -/
def gitHubSubject (repoOwner repoName rest : String) : String :=
  "repo:" ++ repoOwner ++ "/" ++ repoName ++ ":" ++ rest

/-! ## Helper lemmas on strings and wildcard matching -/

lemma str_data_append (a b : String) : (a ++ b).data = a.data ++ b.data := rfl

lemma str_eq_of_data_eq {a b : String} (h : a.data = b.data) : a = b := by
  cases a; cases b; exact congrArg String.mk h

lemma str_ne_of_length_ne {a b : String} (h : a.data.length ≠ b.data.length) : a ≠ b := by
  intro he; exact h (by rw [he])

lemma str_ne_of_head_ne {a b : String} {c d : Char} (ha : a.data.head? = some c)
    (hb : b.data.head? = some d) (hcd : c ≠ d) : a ≠ b := by
  intro h
  rw [h, hb] at ha
  injection ha with h1
  exact hcd h1.symm

/-- A star-free pattern matches exactly itself. -/
lemma globMatch_star_free {p : List Char} (hp : '*' ∉ p) (s : List Char) :
    globMatch p s = true ↔ p = s := by
  induction p generalizing s with
  | nil =>
    cases s <;> simp [globMatch]
  | cons c ps ih =>
    have hc : c ≠ '*' := fun h => hp (h ▸ List.mem_cons_self c ps)
    have hps : '*' ∉ ps := fun h => hp (List.mem_cons_of_mem c h)
    cases s with
    | nil => simp [globMatch, hc]
    | cons d s₂ =>
      simp [globMatch, hc, ih hps, Bool.and_eq_true, beq_iff_eq]

/-- A pattern that is a single leading star followed by a star-free body
matches exactly the strings having the body as a suffix. -/
lemma globMatch_star_cons {body : List Char} (hb : '*' ∉ body) (s : List Char) :
    globMatch ('*' :: body) s = true ↔ body <:+ s := by
  have hdef : globMatch ('*' :: body) s = s.tails.any fun t => globMatch body t := by
    simp [globMatch]
  rw [hdef, List.any_eq_true]
  constructor
  · rintro ⟨t, ht, hm⟩
    rw [globMatch_star_free hb] at hm
    exact hm ▸ (List.mem_tails _ _).1 ht
  · intro h
    exact ⟨body, (List.mem_tails _ _).2 h, (globMatch_star_free hb body).2 rfl⟩

/-- A star-free body followed by a single trailing star matches exactly the
strings having the body as a prefix. -/
lemma globMatch_append_star {body : List Char} (hb : '*' ∉ body) (s : List Char) :
    globMatch (body ++ ['*']) s = true ↔ body <+: s := by
  induction body generalizing s with
  | nil =>
    simp only [List.nil_append]
    have hdef : globMatch ['*'] s = s.tails.any fun t => globMatch [] t := by
      simp [globMatch]
    rw [hdef, List.any_eq_true]
    constructor
    · intro _; exact List.nil_prefix
    · intro _
      exact ⟨[], (List.mem_tails _ _).2 List.nil_suffix, rfl⟩
  | cons c bs ih =>
    have hc : c ≠ '*' := fun h => hb (h ▸ List.mem_cons_self c bs)
    have hbs : '*' ∉ bs := fun h => hb (List.mem_cons_of_mem c h)
    cases s with
    | nil => simp [globMatch, hc]
    | cons d s₂ =>
      simp [globMatch, hc, ih hbs, List.cons_prefix_cons, Bool.and_eq_true, beq_iff_eq]

/-- Splitting a list at a separator absent from both left parts is unique. -/
lemma sep_split (sep : Char) :
    ∀ (a b u v : List Char), sep ∉ a → sep ∉ b →
      a ++ sep :: u = b ++ sep :: v → a = b ∧ u = v := by
  intro a
  induction a with
  | nil =>
    intro b u v _ hb h
    cases b with
    | nil => simpa using h
    | cons x b₂ =>
      simp only [List.nil_append, List.cons_append, List.cons.injEq] at h
      exact absurd (h.1 ▸ List.mem_cons_self x b₂) hb
  | cons y a₂ ih =>
    intro b u v ha hb h
    cases b with
    | nil =>
      simp only [List.cons_append, List.nil_append, List.cons.injEq] at h
      exact absurd (h.1 ▸ List.mem_cons_self y a₂) ha
    | cons x b₂ =>
      simp only [List.cons_append, List.cons.injEq] at h
      have ha₂ : sep ∉ a₂ := fun hm => ha (List.mem_cons_of_mem y hm)
      have hb₂ : sep ∉ b₂ := fun hm => hb (List.mem_cons_of_mem x hm)
      obtain ⟨h1, h2⟩ := ih b₂ u v ha₂ hb₂ h.2
      exact ⟨by rw [h.1, h1], h2⟩

/-- Two suffixes of the same list are comparable. -/
lemma suffix_total {α : Type} {b₁ b₂ n : List α}
    (h₁ : b₁ <:+ n) (h₂ : b₂ <:+ n) : b₁ <:+ b₂ ∨ b₂ <:+ b₁ := by
  induction n with
  | nil =>
    rw [List.suffix_nil] at h₁ h₂
    exact Or.inl (h₁ ▸ h₂ ▸ List.suffix_rfl)
  | cons a t ih =>
    rcases List.suffix_cons_iff.1 h₁ with h₁e | h₁t
    · exact Or.inr (h₁e ▸ h₂)
    · rcases List.suffix_cons_iff.1 h₂ with h₂e | h₂t
      · exact Or.inl (h₂e ▸ h₁)
      · exact ih h₁t h₂t

/-- Cancelling a common appended tail preserves the suffix relation. -/
lemma suffix_append_cancel {α : Type} {x y t : List α}
    (h : x ++ t <:+ y ++ t) : x <:+ y := by
  obtain ⟨u, hu⟩ := h
  rw [← List.append_assoc] at hu
  exact ⟨u, List.append_cancel_right hu⟩

lemma dnsRecordNamePattern_data (s d : String) :
    (dnsRecordNamePattern s d).data = '*' :: (s.data ++ '.' :: d.data) := by
  have h : (dnsRecordNamePattern s d).data = ['*'] ++ s.data ++ ['.'] ++ d.data := rfl
  rw [h]
  simp [List.append_assoc]

lemma gitHubActionsSubjectClaim_data (o n : String) :
    (gitHubActionsSubjectClaim o n).data =
      ("repo:".data ++ (o.data ++ '/' :: (n.data ++ [':']))) ++ ['*'] := by
  have h : (gitHubActionsSubjectClaim o n).data =
      "repo:".data ++ o.data ++ ['/'] ++ n.data ++ [':', '*'] := rfl
  rw [h]
  simp [List.append_assoc]

lemma gitHubSubject_data (o n rest : String) :
    (gitHubSubject o n rest).data =
      "repo:".data ++ (o.data ++ '/' :: (n.data ++ ':' :: rest.data)) := by
  have h : (gitHubSubject o n rest).data =
      "repo:".data ++ o.data ++ ['/'] ++ n.data ++ [':'] ++ rest.data := rfl
  rw [h]
  simp [List.append_assoc]

lemma getField_loadConfig (ctx env : String → Option String) :
    ∀ g ∈ requiredEnvironmentVars,
      getField (loadConfig ctx env) g = jsOr (ctx g) (env (envVarNameFor g)) := by
  intro g hg
  fin_cases hg <;> simp [getField, loadConfig, envVarNameFor]

/-- The validation loop reports the (unique) falsy field when all other
required fields are truthy. -/
lemma validateFields_error (c : Config) :
    ∀ (l : List String) (f : String), f ∈ l →
      truthy (getField c f) = false →
      (∀ g ∈ l, g ≠ f → truthy (getField c g) = true) →
      validateFields c l = Except.error (missingFieldError f) := by
  intro l
  induction l with
  | nil => intro f hf; cases hf
  | cons a rest ih =>
    intro f hf hF hT
    by_cases haf : a = f
    · subst haf
      simp [validateFields, hF]
    · have ha : truthy (getField c a) = true := hT a (List.mem_cons_self a rest) haf
      have hf₂ : f ∈ rest := by
        rcases List.mem_cons.1 hf with h | h
        · exact absurd h.symm haf
        · exact h
      rw [validateFields, ha]
      simp only [if_true]
      exact ih f hf₂ hF fun g hg hne => hT g (List.mem_cons_of_mem a hg) hne

/-- The validation loop succeeds when every required field is truthy. -/
lemma validateFields_ok (c : Config) :
    ∀ l : List String, (∀ g ∈ l, truthy (getField c g) = true) →
      validateFields c l = Except.ok () := by
  intro l
  induction l with
  | nil => intro _; rfl
  | cons a rest ih =>
    intro hT
    have ha := hT a (List.mem_cons_self a rest)
    rw [validateFields, ha]
    simp only [if_true]
    exact ih fun g hg => hT g (List.mem_cons_of_mem a hg)

/-! ## Claim theorems -/

/-- C7: for every input configuration, the root certificate component requests
its certificate in region `us-east-1`, regardless of the account or region in
the props passed to it: the `super` call replaces the caller's `env` with
`{ region: "us-east-1" }`. -/
theorem root_certificate_region_pinned (p : RootCertStackProps) :
    (rootCertificateStack p).certificate.region = some "us-east-1" ∧
    (rootCertificateStack p).env = some { account := none, region := some "us-east-1" } :=
  ⟨rfl, rfl⟩

/-- C9: for every stage, the static-website stack in `src/infra/lib` declares
two separate cross-account zone delegation records — `DelegationRecord-<stage>`
and `subdomainDelegationRecord`, which are distinct ids — both delegating the
same subdomain zone into the same parent zone via the same delegation role. -/
theorem two_delegation_records_declared (account : String) (p : WebsiteProps) :
    (staticWebsiteStack account p).delegationRecords.length = 2 ∧
    (staticWebsiteStack account p).delegationRecords.map DelegationRecordDecl.constructId =
      ["DelegationRecord-" ++ p.stageName, "subdomainDelegationRecord"] ∧
    "DelegationRecord-" ++ p.stageName ≠ "subdomainDelegationRecord" ∧
    (staticWebsiteStack account p).delegationRecords.map DelegationRecordDecl.delegatedZoneName =
      [p.domainName, p.domainName] ∧
    (staticWebsiteStack account p).delegationRecords.map
        DelegationRecordDecl.parentHostedZoneName =
      [p.rootHostedZoneName, p.rootHostedZoneName] ∧
    (staticWebsiteStack account p).delegationRecords.map DelegationRecordDecl.delegationRoleArn =
      [websiteDelegationRoleArn p, websiteDelegationRoleArn p] := by
  refine ⟨rfl, rfl, ?_, rfl, rfl, rfl⟩
  intro h
  have h2 : (some 'D' : Option Char) = some 's' := congrArg (fun x : String => x.data.head?) h
  simp at h2

/-- C5: the static-website stack in `src/infra/lib` adds an explicit dependency
edge from the certificate to the stage's cross-account delegation record, so
every evaluation order respecting the dependency edges places the delegation
record strictly before the certificate. -/
theorem certificate_after_delegation_record (order : List SWNode)
    (h : respectsDependencies swExplicitDependencies order = true) :
    (SWNode.subdomainCertificate, SWNode.delegationRecordStage) ∈ swExplicitDependencies ∧
    order.indexOf SWNode.delegationRecordStage < order.indexOf SWNode.subdomainCertificate := by
  refine ⟨by simp [swExplicitDependencies], ?_⟩
  rw [respectsDependencies, List.all_eq_true] at h
  exact of_decide_eq_true
    (h (SWNode.subdomainCertificate, SWNode.delegationRecordStage)
      (by simp [swExplicitDependencies]))

theorem certificate_after_delegation_record_check :
    respectsDependencies swExplicitDependencies
        [SWNode.delegationRecordStage, SWNode.subdomainCertificate] = true ∧
    ([SWNode.delegationRecordStage, SWNode.subdomainCertificate] : List SWNode).indexOf
        SWNode.delegationRecordStage <
      ([SWNode.delegationRecordStage, SWNode.subdomainCertificate] : List SWNode).indexOf
        SWNode.subdomainCertificate :=
  ⟨by decide, (certificate_after_delegation_record _ (by decide)).2⟩

/-- C3 counterexample: the record-name pattern the DNS stack places in a
stage's role condition is not the dotted wildcard `*.<stage>.<domain>`: for
stage `gamma` and domain `example.com` the generated pattern list is
`["*gamma.example.com"]`, which does not contain `*.gamma.example.com`. -/
theorem dns_pattern_has_no_dot :
    (dnsStackRoles "example.com" [("gamma", "123456789012")]).map
        DelegationRole.recordNamePatterns = [["*gamma.example.com"]] ∧
    "*.gamma.example.com" ∉ (["*gamma.example.com"] : List String) := by
  exact ⟨rfl, by decide⟩

/-- C3 (amended): for every stage `s` and domain `d` in the trusted-accounts
mapping, the role the DNS stack generates for that stage carries the single
record-name allow-list pattern `*<s>.<d>` — a wildcard immediately followed by
the stage name, with no dot in between — and that pattern differs from the
dotted pattern `*.<s>.<d>`. -/
theorem dns_pattern_shape (domainName : String) (ts : List (String × String))
    (stageName account : String) (h : (stageName, account) ∈ ts) :
    ({ roleName := dnsStackRoleName stageName
       assumedByAccount := account
       recordNamePatterns := ["*" ++ stageName ++ "." ++ domainName] } : DelegationRole)
      ∈ dnsStackRoles domainName ts ∧
    dnsRecordNamePattern stageName domainName = "*" ++ stageName ++ "." ++ domainName ∧
    dnsRecordNamePattern stageName domainName ≠
      "*." ++ stageName ++ "." ++ domainName := by
  refine ⟨List.mem_map_of_mem _ h, rfl, ?_⟩
  apply str_ne_of_length_ne
  unfold dnsRecordNamePattern
  simp only [str_data_append, List.length_append]
  simp

theorem dns_pattern_shape_check :
    ("gamma", "123456789012") ∈ [("gamma", "123456789012")] ∧
    ({ roleName := dnsStackRoleName "gamma"
       assumedByAccount := "123456789012"
       recordNamePatterns := ["*" ++ "gamma" ++ "." ++ "example.com"] } : DelegationRole)
      ∈ dnsStackRoles "example.com" [("gamma", "123456789012")] ∧
    dnsRecordNamePattern "gamma" "example.com" ≠
      "*." ++ "gamma" ++ "." ++ "example.com" :=
  ⟨by decide,
    (dns_pattern_shape "example.com" _ "gamma" "123456789012" (by decide)).1,
    (dns_pattern_shape "example.com" [("gamma", "123456789012")] "gamma" "123456789012"
      (by decide)).2.2⟩

/-- C10 counterexample: for the stage name `1a`, whose first character `1` is
not an uppercase letter, capitalization changes nothing, so the role name the
`part_004` variant references equals the role name the DNS stack creates. -/
theorem role_name_capitalization_agrees_on_nonletter :
    "1a".data.head? = some '1' ∧ '1'.isUpper = false ∧
    part004DelegationRoleName "1a" = dnsStackRoleName "1a" := by
  exact ⟨rfl, by decide, by decide⟩

/-- C10 (amended): the `part_004` variant references
`CrossAccountDnsManagementRole-Gamma` while the DNS stack creates
`CrossAccountDnsManagementRole-gamma`, and in general, for every stage name
whose first character is changed by uppercasing (in particular any lowercase
letter), the role name referenced by `part_004` differs from the role name the
DNS stack creates for that stage. -/
theorem role_name_capitalization_mismatch (s : String) (c : Char) (cs : List Char)
    (hdata : s.data = c :: cs) (hc : c.toUpper ≠ c) :
    part004DelegationRoleName s ≠ dnsStackRoleName s ∧
    part004DelegationRoleName "gamma" = "CrossAccountDnsManagementRole-Gamma" ∧
    dnsStackRoleName "gamma" = "CrossAccountDnsManagementRole-gamma" := by
  refine ⟨?_, by decide, rfl⟩
  intro h
  unfold part004DelegationRoleName dnsStackRoleName at h
  have h2 := congrArg String.data h
  rw [str_data_append, str_data_append] at h2
  have h3 := List.append_cancel_left h2
  have h4 : (capitalizeFirstLetter s).data = c.toUpper :: cs := by
    simp [capitalizeFirstLetter, hdata]
  rw [h4, hdata] at h3
  injection h3 with h5 h6
  exact hc h5

theorem role_name_capitalization_mismatch_check :
    "gamma".data = 'g' :: "amma".data ∧ 'g'.toUpper ≠ 'g' ∧
    part004DelegationRoleName "gamma" ≠ dnsStackRoleName "gamma" :=
  ⟨rfl, by decide,
    (role_name_capitalization_mismatch "gamma" 'g' "amma".data rfl (by decide)).1⟩

/-- C1 counterexample: in the `src/infra/lib` static-website stack for the
`prod` stage (root domain `example.com`), neither the distribution's domain
list nor the certificate's covered names contain the `www.example.com` alias,
contradicting the claim that both include it. -/
theorem www_alias_not_on_lib_prod_distribution :
    (staticWebsiteStack "555555555555"
        (stageWebsiteProps "111111111111" "example.com" "prod")).distributionDomainNames =
      ["example.com", "prod.example.com"] ∧
    "www.example.com" ∉ (staticWebsiteStack "555555555555"
        (stageWebsiteProps "111111111111" "example.com" "prod")).distributionDomainNames ∧
    certificateCoveredNames (staticWebsiteStack "555555555555"
        (stageWebsiteProps "111111111111" "example.com" "prod")).certificate =
      ["prod.example.com", "example.com"] ∧
    "www.example.com" ∉ certificateCoveredNames (staticWebsiteStack "555555555555"
        (stageWebsiteProps "111111111111" "example.com" "prod")).certificate := by
  refine ⟨rfl, by decide, rfl, by decide⟩

/-- C1 (amended): in the `src/infra/lib` stack, the `prod` stage's
distribution domain list and certificate covered names both include the bare
root domain but neither includes the `www` alias; for any other stage (other
than a hypothetical stage literally named `www`) neither list includes the
bare root domain or the `www` alias.  In the `part_004` variant, the `prod`
distribution does list the `www` alias and the bare root domain, but its
certificate covers only the `prod` subdomain. -/
theorem domain_coverage_by_stage (dns root stage account : String) :
    (stage = "prod" →
      root ∈ (staticWebsiteStack account
          (stageWebsiteProps dns root stage)).distributionDomainNames ∧
      root ∈ certificateCoveredNames
          (staticWebsiteStack account (stageWebsiteProps dns root stage)).certificate ∧
      "www." ++ root ∉ (staticWebsiteStack account
          (stageWebsiteProps dns root stage)).distributionDomainNames ∧
      "www." ++ root ∉ certificateCoveredNames
          (staticWebsiteStack account (stageWebsiteProps dns root stage)).certificate) ∧
    (stage ≠ "prod" → stage ≠ "www" →
      root ∉ (staticWebsiteStack account
          (stageWebsiteProps dns root stage)).distributionDomainNames ∧
      root ∉ certificateCoveredNames
          (staticWebsiteStack account (stageWebsiteProps dns root stage)).certificate ∧
      "www." ++ root ∉ (staticWebsiteStack account
          (stageWebsiteProps dns root stage)).distributionDomainNames ∧
      "www." ++ root ∉ certificateCoveredNames
          (staticWebsiteStack account (stageWebsiteProps dns root stage)).certificate) ∧
    (stage = "prod" →
      "www." ++ root ∈ (staticWebsiteStack004 account
          (stageWebsiteProps dns root stage)).distributionDomainNames ∧
      root ∈ (staticWebsiteStack004 account
          (stageWebsiteProps dns root stage)).distributionDomainNames ∧
      certificate004CoveredNames
          (staticWebsiteStack004 account (stageWebsiteProps dns root stage)).certificate =
        some [stage ++ "." ++ root]) := by
  refine ⟨?_, ?_, ?_⟩
  · intro hp
    subst hp
    have h1 : "www." ++ root ≠ root := by
      apply str_ne_of_length_ne
      rw [str_data_append]
      simp
      omega
    have h2 : "www." ++ root ≠ "prod." ++ root :=
      @str_ne_of_head_ne ("www." ++ root) ("prod." ++ root) 'w' 'p' rfl rfl (by decide)
    refine ⟨?_, ?_, ?_, ?_⟩ <;>
      simp [staticWebsiteStack, stageWebsiteProps, certificateCoveredNames, h1, h2]
  · intro hp hw
    have h3 : root ≠ stage ++ "." ++ root := by
      apply str_ne_of_length_ne
      simp only [str_data_append, List.length_append]
      simp
    have h4 : "www." ++ root ≠ stage ++ "." ++ root := by
      intro h
      have h2 := congrArg String.data h
      rw [str_data_append, str_data_append, str_data_append] at h2
      have h5 := List.append_cancel_right h2
      have h6 : stage.data ++ ['.'] = "www".data ++ ['.'] := by simpa using h5.symm
      exact hw (str_eq_of_data_eq (List.append_cancel_right h6))
    refine ⟨?_, ?_, ?_, ?_⟩ <;>
      simp [staticWebsiteStack, stageWebsiteProps, certificateCoveredNames, hp, h3, h4]
  · intro hp
    subst hp
    refine ⟨?_, ?_, rfl⟩ <;>
      simp [staticWebsiteStack004, stageWebsiteProps]

theorem domain_coverage_by_stage_check :
    "example.com" ∈ (staticWebsiteStack "555555555555"
        (stageWebsiteProps "111111111111" "example.com" "prod")).distributionDomainNames ∧
    "example.com" ∉ (staticWebsiteStack "555555555555"
        (stageWebsiteProps "111111111111" "example.com" "gamma")).distributionDomainNames ∧
    "www.example.com" ∈ (staticWebsiteStack004 "555555555555"
        (stageWebsiteProps "111111111111" "example.com" "prod")).distributionDomainNames :=
  ⟨((domain_coverage_by_stage "111111111111" "example.com" "prod" "555555555555").1 rfl).1,
    ((domain_coverage_by_stage "111111111111" "example.com" "gamma" "555555555555").2.1
      (by decide) (by decide)).1,
    ((domain_coverage_by_stage "111111111111" "example.com" "prod" "555555555555").2.2 rfl).1⟩

/-- C2: evaluation of the `part_004` variant at the failing input.  For the
`prod` stage with root domain `example.com`, the distribution's domain list
contains `www.example.com` (and `example.com`), but the certificate created in
that branch covers only `prod.example.com`, so the distribution's domain names
are not a subset of the certificate's covered names. -/
theorem part004_prod_distribution_names_not_covered :
    certificate004CoveredNames (staticWebsiteStack004 "555555555555"
        (stageWebsiteProps "111111111111" "example.com" "prod")).certificate =
      some ["prod.example.com"] ∧
    "www.example.com" ∈ (staticWebsiteStack004 "555555555555"
        (stageWebsiteProps "111111111111" "example.com" "prod")).distributionDomainNames ∧
    "example.com" ∈ (staticWebsiteStack004 "555555555555"
        (stageWebsiteProps "111111111111" "example.com" "prod")).distributionDomainNames ∧
    "www.example.com" ∉ (["prod.example.com"] : List String) ∧
    "example.com" ∉ (["prod.example.com"] : List String) := by
  refine ⟨by decide, by decide, by decide, by decide, by decide⟩

set_option maxRecDepth 8000 in
/-- C4: if a required configuration field is absent from both CDK context and
environment (all others being set), `app.ts` throws before any stack is
instantiated, with a message that names exactly that field and no other
required field; when all required fields are set, no error is thrown and the
five stacks are constructed. -/
theorem config_validation_behavior :
    (∀ (ctx env : String → Option String) (f : String),
      f ∈ requiredEnvironmentVars →
      ctx f = none →
      env (envVarNameFor f) = none →
      (∀ g ∈ requiredEnvironmentVars, g ≠ f →
        truthy (jsOr (ctx g) (env (envVarNameFor g))) = true) →
      buildApp ctx env = Except.error (missingFieldError f) ∧
      f.data <:+: (missingFieldError f).data ∧
      (∀ g ∈ requiredEnvironmentVars, g ≠ f →
        ¬ g.data <:+: (missingFieldError f).data)) ∧
    (∀ ctx env : String → Option String,
      (∀ g ∈ requiredEnvironmentVars,
        truthy (jsOr (ctx g) (env (envVarNameFor g))) = true) →
      buildApp ctx env = Except.ok (appStacks (loadConfig ctx env)) ∧
      (appStacks (loadConfig ctx env)).length = 5) := by
  constructor
  · intro ctx env f hf hctx henv hothers
    have hF : truthy (getField (loadConfig ctx env) f) = false := by
      rw [getField_loadConfig ctx env f hf, hctx, henv]
      rfl
    have hT : ∀ g ∈ requiredEnvironmentVars, g ≠ f →
        truthy (getField (loadConfig ctx env) g) = true := by
      intro g hg hne
      rw [getField_loadConfig ctx env g hg]
      exact hothers g hg hne
    have hval := validateFields_error (loadConfig ctx env) requiredEnvironmentVars f hf hF hT
    refine ⟨?_, ?_, ?_⟩
    · simp [buildApp, hval]
    · fin_cases hf <;> decide
    · fin_cases hf <;> decide
  · intro ctx env hall
    have hT : ∀ g ∈ requiredEnvironmentVars,
        truthy (getField (loadConfig ctx env) g) = true := by
      intro g hg
      rw [getField_loadConfig ctx env g hg]
      exact hall g hg
    have hval := validateFields_ok (loadConfig ctx env) requiredEnvironmentVars hT
    exact ⟨by simp [buildApp, hval], rfl⟩

theorem config_validation_behavior_check :
    buildApp (fun _ => (none : Option String))
        (fun v => if v = "DNS_ACCOUNT_ID" then (none : Option String) else some "value") =
      Except.error (missingFieldError "dnsAccount") ∧
    buildApp (fun _ => (none : Option String)) (fun _ => (some "value" : Option String)) =
      Except.ok (appStacks (loadConfig (fun _ => (none : Option String))
        (fun _ => (some "value" : Option String)))) :=
  ⟨(config_validation_behavior.1 _ _ "dnsAccount" (by decide) rfl (by decide)
      (by decide)).1,
    (config_validation_behavior.2 _ _ (by decide)).1⟩

/-- C6 counterexample: for the trusted-accounts mapping with the two distinct
stages `prod` and `preprod` over domain `example.com`, the generated patterns
`*prod.example.com` and `*preprod.example.com` overlap: the record name
`preprod.example.com` matches both. -/
theorem dns_patterns_overlap_for_suffix_stages :
    ("prod", "111111111111") ∈
      ([("prod", "111111111111"), ("preprod", "222222222222")] : List (String × String)) ∧
    ("preprod", "222222222222") ∈
      ([("prod", "111111111111"), ("preprod", "222222222222")] : List (String × String)) ∧
    ("prod" : String) ≠ "preprod" ∧
    (dnsStackRoles "example.com"
        [("prod", "111111111111"), ("preprod", "222222222222")]).map
        DelegationRole.recordNamePatterns =
      [["*prod.example.com"], ["*preprod.example.com"]] ∧
    globMatch "*prod.example.com".data "preprod.example.com".data = true ∧
    globMatch "*preprod.example.com".data "preprod.example.com".data = true := by
  refine ⟨by decide, by decide, by decide, rfl, by decide, by decide⟩

/-- C6 (amended): every generated delegation role's record-name pattern
contains the owning stage's name as a substring, but patterns of two distinct
stages are not always disjoint: whenever some record name matches both
stages' patterns, one stage name must be a suffix of the other (as happens
for `prod`/`preprod`); conversely, when neither stage name is a suffix of the
other the patterns cannot overlap. -/
theorem dns_pattern_anchoring (domainName : String) (ts : List (String × String))
    (s₁ s₂ a₁ a₂ name : String)
    (h₁ : (s₁, a₁) ∈ ts) (h₂ : (s₂, a₂) ∈ ts)
    (hs₁ : '*' ∉ s₁.data) (hs₂ : '*' ∉ s₂.data) (hd : '*' ∉ domainName.data) :
    ({ roleName := dnsStackRoleName s₁
       assumedByAccount := a₁
       recordNamePatterns := [dnsRecordNamePattern s₁ domainName] } : DelegationRole)
      ∈ dnsStackRoles domainName ts ∧
    ({ roleName := dnsStackRoleName s₂
       assumedByAccount := a₂
       recordNamePatterns := [dnsRecordNamePattern s₂ domainName] } : DelegationRole)
      ∈ dnsStackRoles domainName ts ∧
    s₁.data <:+: (dnsRecordNamePattern s₁ domainName).data ∧
    (globMatch (dnsRecordNamePattern s₁ domainName).data name.data = true →
      globMatch (dnsRecordNamePattern s₂ domainName).data name.data = true →
      s₁.data <:+ s₂.data ∨ s₂.data <:+ s₁.data) := by
  refine ⟨List.mem_map_of_mem _ h₁, List.mem_map_of_mem _ h₂, ?_, ?_⟩
  · rw [dnsRecordNamePattern_data]
    exact ⟨['*'], '.' :: domainName.data, by simp⟩
  · intro hm₁ hm₂
    rw [dnsRecordNamePattern_data] at hm₁ hm₂
    have hb₁ : '*' ∉ s₁.data ++ '.' :: domainName.data := by
      simp [List.mem_append, List.mem_cons, hs₁, hd]
    have hb₂ : '*' ∉ s₂.data ++ '.' :: domainName.data := by
      simp [List.mem_append, List.mem_cons, hs₂, hd]
    rw [globMatch_star_cons hb₁] at hm₁
    rw [globMatch_star_cons hb₂] at hm₂
    rcases suffix_total hm₁ hm₂ with h | h
    · exact Or.inl (suffix_append_cancel h)
    · exact Or.inr (suffix_append_cancel h)

theorem dns_pattern_anchoring_check :
    ({ roleName := dnsStackRoleName "gamma"
       assumedByAccount := "123456789012"
       recordNamePatterns := [dnsRecordNamePattern "gamma" "example.com"] } : DelegationRole)
      ∈ dnsStackRoles "example.com"
          [("gamma", "123456789012"), ("prod", "111111111111")] ∧
    "gamma".data <:+: (dnsRecordNamePattern "gamma" "example.com").data :=
  ⟨(dns_pattern_anchoring "example.com" [("gamma", "123456789012"), ("prod", "111111111111")]
      "gamma" "prod" "123456789012" "111111111111" "x.gamma.example.com"
      (by decide) (by decide) (by decide) (by decide) (by decide)).1,
    (dns_pattern_anchoring "example.com" [("gamma", "123456789012"), ("prod", "111111111111")]
      "gamma" "prod" "123456789012" "111111111111" "x.gamma.example.com"
      (by decide) (by decide) (by decide) (by decide) (by decide)).2.2.1⟩

/-- C8: the CI role's federated trust permits `sts:AssumeRoleWithWebIdentity`
with the audience pinned to `sts.amazonaws.com`, for every ref of the declared
repository, and for no other repository: any allowed subject of the form
`repo:<owner>/<name>:<ref>` must name exactly the declared owner and
repository (GitHub owner names contain no `/` or `:` and repository names no
`:`). -/
theorem github_trust_scope (o n o₂ n₂ ref ref₂ aud : String)
    (hoSlash : '/' ∉ o.data) (hnColon : ':' ∉ n.data)
    (hoStar : '*' ∉ o.data) (hnStar : '*' ∉ n.data)
    (ho₂Slash : '/' ∉ o₂.data) (hn₂Colon : ':' ∉ n₂.data) :
    (gitHubActionsTrust o n).action = "sts:AssumeRoleWithWebIdentity" ∧
    allowsAssume (gitHubActionsTrust o n) "sts.amazonaws.com" (gitHubSubject o n ref) ∧
    (allowsAssume (gitHubActionsTrust o n) aud (gitHubSubject o₂ n₂ ref₂) →
      aud = "sts.amazonaws.com" ∧ o₂ = o ∧ n₂ = n) := by
  have hbody : '*' ∉ "repo:".data ++ (o.data ++ '/' :: (n.data ++ [':'])) := by
    have hr : "repo:".data = ['r', 'e', 'p', 'o', ':'] := rfl
    rw [hr]
    simp [List.mem_append, List.mem_cons, hoStar, hnStar]
  refine ⟨rfl, ⟨rfl, ?_⟩, ?_⟩
  · rw [show (gitHubActionsTrust o n).subLike = gitHubActionsSubjectClaim o n from rfl]
    rw [gitHubActionsSubjectClaim_data, gitHubSubject_data, globMatch_append_star hbody]
    exact ⟨ref.data, by simp [List.append_assoc]⟩
  · rintro ⟨haud, hmatch⟩
    rw [show (gitHubActionsTrust o n).subLike = gitHubActionsSubjectClaim o n from rfl]
      at hmatch
    rw [gitHubActionsSubjectClaim_data, gitHubSubject_data,
      globMatch_append_star hbody] at hmatch
    obtain ⟨t, ht⟩ := hmatch
    rw [List.append_assoc] at ht
    have ht₂ := List.append_cancel_left ht
    simp only [List.append_assoc, List.cons_append, List.singleton_append] at ht₂
    obtain ⟨ho, hrest⟩ := sep_split '/' _ _ _ _ hoSlash ho₂Slash ht₂
    obtain ⟨hn, -⟩ := sep_split ':' _ _ _ _ hnColon hn₂Colon hrest
    exact ⟨haud, (str_eq_of_data_eq ho).symm, (str_eq_of_data_eq hn).symm⟩

theorem github_trust_scope_check :
    ('/' ∉ "colbychaskell".data) ∧
    allowsAssume (gitHubActionsTrust "colbychaskell" "clhaskell") "sts.amazonaws.com"
      (gitHubSubject "colbychaskell" "clhaskell" "ref:refs/heads/main") :=
  ⟨by decide,
    (github_trust_scope "colbychaskell" "clhaskell" "colbychaskell" "clhaskell"
      "ref:refs/heads/main" "ref:refs/heads/main" "sts.amazonaws.com"
      (by decide) (by decide) (by decide) (by decide) (by decide) (by decide)).2.1⟩

end Clhaskell
